import Mathlib

/-!
Verification of the tabular dataset engine of the planner-viewer application
in `src/main.py`.  The Python code manipulates pandas DataFrames through a
Tk presentation layer; here a DataFrame is embedded as an ordered list of
column names together with a list of rows, each row carrying its integer
index label and one optional cell per column (`none` models a pandas
missing value, NaN; scalar cells are modelled as text, which is how the
engine compares them).  String operations are modelled over `List Char`
(`String.data`) so that every definition evaluates inside the kernel:
`lowerStr` is Python `str.lower` (ASCII range, as exercised by the data),
`stripStr` is Python `str.strip`, list-lexicographic order on `List Char`
is Python string comparison (code-point lexicographic).
-/

/-- One cell of a DataFrame: `some s` is a scalar value, `none` is NaN. -/
abbrev Cell := Option String

/-- Python `str.lower` (`.str.lower()` in pandas): lower-case each character. -/
def lowerStr (s : String) : String := ⟨s.data.map Char.toLower⟩

/-- Python `str.strip`: drop leading and trailing whitespace characters. -/
def stripChars (l : List Char) : List Char :=
  ((l.dropWhile Char.isWhitespace).reverse.dropWhile Char.isWhitespace).reverse

/-- Python `str.strip` on `String`. -/
def stripStr (s : String) : String := ⟨stripChars s.data⟩

/-- Substring containment on character lists.  pandas `Series.str.contains`
interprets its pattern as a regular expression (`regex=True` default) and the
application passes the raw search text; for patterns free of regex
metacharacters — the scope of this model, made explicit by hypothesis in the
filter theorem — regex search coincides with the substring containment
modelled here.  Terms containing metacharacters behave as regular
expressions in the program (or raise `re.error`) and are outside the
model. -/
def containsSub (hay pat : List Char) : Bool :=
  match hay with
  | [] => pat.isEmpty
  | c :: t => pat.isPrefixOf (c :: t) || containsSub t pat

/-- Substring containment on `String` (`pat` inside `hay`). -/
def strContains (hay pat : String) : Bool := containsSub hay.data pat.data

/-- Python string comparison (`<=`): code-point lexicographic, modelled by the
lexicographic order on the underlying character lists. -/
def strLe (a b : String) : Bool := decide (a.data ≤ b.data)

/-- Characters that are special in Python regular expressions. -/
def isRegexMeta (c : Char) : Bool :=
  decide (c ∈ ['.', '^', '$', '*', '+', '?', '\x7b', '\x7d', '[', ']',
    '\\', '|', '(', ')'])

/-- A search term free of Python regex metacharacters: on such terms
`re.search` (hence pandas `str.contains` with its `regex=True` default) is
literal substring containment, so `containsSub` models the program's
behaviour exactly for them. -/
def regexLiteral (s : String) : Bool := s.data.all fun c => !(isRegexMeta c)

/-- Shallow embedding of a pandas DataFrame: ordered column names plus rows.
Each row is paired with its integer index label (the DataFrame index); after
`reset_index(drop=True)` the labels are the dense range `0..N-1`. -/
structure DataFrame where
  columns : List String
  rows : List (Nat × List Cell)
deriving Repr, DecidableEq

/-- Position of a column name in a column list (first occurrence). -/
def colIndex? (c : String) : List String → Option Nat
  | [] => none
  | x :: xs => if x = c then some 0 else (colIndex? c xs).map (· + 1)

/-- The cell of a cell list `cs` (aligned with `cols`) at column `c`. -/
def cellOfCells (cols : List String) (cs : List Cell) (c : String) : Cell :=
  match colIndex? c cols with
  | some j => cs.getD j none
  | none => none

/-- pandas `astype(str)` on one cell: a missing value (NaN) prints as the
string `"nan"` (missing cells originate from `read_excel` as float NaN). -/
def astypeStr : Cell → String
  | none => "nan"
  | some s => s

/-- `PlannerViewer.on_search`: the query is lower-cased and stripped; an empty
query shows the full frame; with an active column a row is kept when that
column's value, `astype(str)` and lower-cased, matches the query
(`str.contains`, modelled as substring containment, faithful for queries
without regex metacharacters); otherwise any column may match. -/
def on_search_filter (df : DataFrame) (raw : String) (active : Option String) :
    DataFrame :=
  let query := stripStr (lowerStr raw)
  if query = "" then df
  else
    match active with
    | some col =>
        { df with rows := df.rows.filter fun r =>
            strContains (lowerStr (astypeStr (cellOfCells df.columns r.2 col))) query }
    | none =>
        { df with rows := df.rows.filter fun r =>
            r.2.any fun c => strContains (lowerStr (astypeStr c)) query }

/-- Stable insertion of `a` into `l` with respect to `le` (before the first
element `b` with `le a b`). -/
def orderedInsertBy {α : Type _} (le : α → α → Bool) (a : α) : List α → List α
  | [] => [a]
  | b :: l => if le a b then a :: b :: l else b :: orderedInsertBy le a l

/-- Stable insertion sort; models the stable `kind='mergesort'` sort that
`populate_tree` requests (a stable sort of the same key order produces the
same output whatever the algorithm). -/
def insertionSortBy {α : Type _} (le : α → α → Bool) : List α → List α
  | [] => []
  | a :: l => orderedInsertBy le a (insertionSortBy le l)

/-- Sort key of a row: the raw cell at the sort column (pandas compares the
cell values themselves; cells here are text or NaN). -/
def rowKey (df : DataFrame) (col : String) (r : Nat × List Cell) : Cell :=
  cellOfCells df.columns r.2 col

/-- Key comparison used on non-NaN rows.  (`getD ""` is never reached on a
NaN key because `sort_values` separates NaN rows first.) -/
def rowLe (df : DataFrame) (col : String) (a b : Nat × List Cell) : Bool :=
  strLe ((rowKey df col a).getD "") ((rowKey df col b).getD "")

/-- pandas `DataFrame.sort_values(by=col, ascending=asc, kind='mergesort')`,
following `nargsort`: rows with a non-NaN key are sorted stably by key; for
`ascending=False` pandas reverses the non-NaN rows, stable-sorts ascending
and reverses the result again (a double reverse, so descending is stable as
well: tied keys keep their original relative order); rows with a NaN key are
appended at the end in their original order (`na_position` defaults to
`'last'`), for either direction. -/
def sort_values (df : DataFrame) (col : String) (asc : Bool) : DataFrame :=
  let notna := df.rows.filter fun r => (rowKey df col r).isSome
  let na := df.rows.filter fun r => (rowKey df col r).isNone
  let sorted := if asc then insertionSortBy (rowLe df col) notna
    else (insertionSortBy (rowLe df col) notna.reverse).reverse
  { df with rows := sorted ++ na }

/-- The sorting step of `PlannerViewer.populate_tree`: sort only when a sort
column is set and present in the frame. -/
def populate_tree_order (df : DataFrame) (sortCol : Option String) (asc : Bool) :
    DataFrame :=
  match sortCol with
  | some col => if decide (col ∈ df.columns) then sort_values df col asc else df
  | none => df

/-- `reset_index(drop=True)`: relabel the rows with the dense range `0..N-1`
keeping their order. -/
def resetIndex (df : DataFrame) : DataFrame :=
  { df with rows := (df.rows.map Prod.snd).enum }

/-- Engine part of `PlannerViewer._on_add_task_confirm`: build one row from
the dialog entries (one string per column, in column order), append it
(`pd.concat(..., ignore_index=True)`) and normalise the index. -/
def add_row (df : DataFrame) (vals : List String) : DataFrame :=
  resetIndex { df with rows := df.rows ++ [(df.rows.length, vals.map some)] }

/-- `self.df.drop(index=ids)` in `PlannerViewer.delete_selected`: pandas
`drop` raises `KeyError` when any label is absent from the index (its
`errors` parameter defaults to `'raise'`); otherwise it removes the matching
rows, keeping the survivors in order with their labels. -/
def dropRows (df : DataFrame) (ids : List Nat) : Except String DataFrame :=
  if ids.all (fun i => df.rows.any fun r => r.1 == i) then
    Except.ok { df with rows := df.rows.filter fun r => !(ids.contains r.1) }
  else Except.error "KeyError"

/-- The two mutation statements of `PlannerViewer.delete_selected`: drop the
selected labels, then `reset_index(drop=True)`. -/
def dropReset (df : DataFrame) (ids : List Nat) : Except String DataFrame :=
  (dropRows df ids).map resetIndex

/-- One iteration of the update loop in `PlannerViewer.mark_selected_done`:
`if idx in self.df.index: self.df.at[idx, col] = v`.  A label absent from the
index is silently skipped.  With a present label but an absent column,
pandas `.at` enlarges the frame (appends the column, other rows NaN); that
branch is unreachable from `mark_selected_done`, which ensures a status
column exists first. -/
def updateAt (df : DataFrame) (idx : Nat) (col : String) (v : String) : DataFrame :=
  if df.rows.any (fun r => r.1 == idx) then
    match colIndex? col df.columns with
    | some j =>
        { df with rows := df.rows.map fun r =>
            if r.1 = idx then (r.1, r.2.set j (some v)) else r }
    | none =>
        { columns := df.columns ++ [col],
          rows := df.rows.map fun r =>
            if r.1 = idx then (r.1, r.2 ++ [some v]) else (r.1, r.2 ++ [none]) }
  else df

/-- `col.lower() in ('status', 'state', 'progress')`. -/
def isStatusLike (c : String) : Bool :=
  decide (lowerStr c = "status" ∨ lowerStr c = "state" ∨ lowerStr c = "progress")

/-- The status-column search loop of `mark_selected_done`: first column (in
declared order) whose lower-cased name is status-like. -/
def findStatusCol (cols : List String) : Option String := cols.find? isStatusLike

/-- `self.df[name] = v` with a fresh column name: appends the column, giving
every existing row the value `v`. -/
def assign_new_column (df : DataFrame) (name : String) (v : String) : DataFrame :=
  { columns := df.columns ++ [name],
    rows := df.rows.map fun r => (r.1, r.2 ++ [some v]) }

/-- `PlannerViewer.mark_selected_done`, engine part: pick the first
status-like column, creating a `Status` column (value `''` everywhere) when
none exists, then set the cell of every selected (and present) label to
`'Completed'`. -/
def mark_selected_done (df : DataFrame) (ids : List Nat) : DataFrame :=
  match findStatusCol df.columns with
  | some c => ids.foldl (fun d i => updateAt d i c "Completed") df
  | none => ids.foldl (fun d i => updateAt d i "Status" "Completed")
      (assign_new_column df "Status" "")

/-- `dict.fromkeys` over a list with an accumulator of already-seen names:
keeps the first occurrence of each name, in order. -/
def dedupFirstAux (seen : List String) : List String → List String
  | [] => []
  | c :: cs =>
      if c ∈ seen then dedupFirstAux seen cs
      else c :: dedupFirstAux (c :: seen) cs

/-- `list(dict.fromkeys(l))`. -/
def dedupFirst (l : List String) : List String := dedupFirstAux [] l

/-- `df.reindex(columns=newCols, fill_value=fill)`: the rows are rebuilt on
the new column list; a column already present keeps its values (NaN stays
NaN), a newly introduced column is filled with `fill`. -/
def reindexColumns (df : DataFrame) (newCols : List String) (fill : Cell) :
    DataFrame :=
  { columns := newCols,
    rows := df.rows.map fun r => (r.1, newCols.map fun c =>
        match colIndex? c df.columns with
        | some j => r.2.getD j none
        | none => fill) }

/-- `MainApp._merge_into_viewer`, engine part: union of the column lists
keeping first occurrences (base first), reindex both frames onto the union
filling absent columns with `""`, concatenate base rows then incoming rows,
and relabel with a fresh dense index (`ignore_index=True`). -/
def merge_into (base incoming : DataFrame) : DataFrame :=
  let unionCols := dedupFirst (base.columns ++ incoming.columns)
  resetIndex
    { columns := unionCols,
      rows := (reindexColumns base unionCols (some "")).rows
           ++ (reindexColumns incoming unionCols (some "")).rows }

/-- One entry of the persisted session file: display title plus the ordered
list of source file locators. -/
structure SessionEntry where
  title : String
  sources : List String
deriving Repr, DecidableEq

/-- The inner loop of `MainApp.load_session` for one session entry: try the
listed sources in order; the first one that loads opens the dataset and the
loop breaks; a source that fails to load is skipped. -/
def restoreEntry (load : String → Option DataFrame) :
    List String → Option DataFrame
  | [] => none
  | s :: rest =>
      match load s with
      | some df => some df
      | none => restoreEntry load rest

/-- `MainApp.load_session`: every entry is processed; an entry none of whose
sources loads contributes nothing. -/
def restoreSession (load : String → Option DataFrame)
    (entries : List SessionEntry) : List DataFrame :=
  entries.filterMap fun e => restoreEntry load e.sources

/-- Per-viewer state of `PlannerViewer` (the fields the engine manipulates):
the backing frame, the derived filtered frame, the filter/sort selections and
the recorded source files. -/
structure ViewerState where
  plan_name : String
  df : DataFrame
  filtered_df : DataFrame
  active_column : Option String
  search_raw : String
  sort_col : Option String
  sort_asc : Bool
  source_files : List String
deriving Repr, DecidableEq

/-- `PlannerViewer.on_search` at the state level: recompute `filtered_df`
from the backing frame and the current filter state. -/
def on_search_state (s : ViewerState) : ViewerState :=
  { s with filtered_df := on_search_filter s.df s.search_raw s.active_column }

/-- The mutation statements of `_on_add_task_confirm` (everything before the
explicit `self.on_search()` refresh). -/
def confirm_add_mutate (s : ViewerState) (vals : List String) : ViewerState :=
  { s with df := add_row s.df vals }

/-- The mutation statements of `mark_selected_done` (before the explicit
`self.on_search()` refresh). -/
def mark_done_mutate (s : ViewerState) (ids : List Nat) : ViewerState :=
  { s with df := mark_selected_done s.df ids }

/-- The mutation statements of `delete_selected` (before the explicit
`self.on_search()` refresh); a pandas `KeyError` aborts the handler and the
state is left as it was. -/
def delete_mutate (s : ViewerState) (ids : List Nat) :
    Except String ViewerState :=
  (dropReset s.df ids).map fun d => { s with df := d }

/-- Full `_on_add_task_confirm` handler: mutation followed by the explicit
refresh call. -/
def handler_add (s : ViewerState) (vals : List String) : ViewerState :=
  on_search_state (confirm_add_mutate s vals)

/-- Full `mark_selected_done` handler: mutation followed by the explicit
refresh call. -/
def handler_mark_done (s : ViewerState) (ids : List Nat) : ViewerState :=
  on_search_state (mark_done_mutate s ids)

/-- Full `delete_selected` handler: on success the explicit refresh follows;
on `KeyError` the handler reports the error and changes nothing. -/
def handler_delete (s : ViewerState) (ids : List Nat) : ViewerState :=
  match delete_mutate s ids with
  | Except.ok s1 => on_search_state s1
  | Except.error _ => s

/-- Source-file bookkeeping of `MainApp._merge_into_viewer`:
`if file_path not in viewer.source_files: viewer.source_files.append(...)`. -/
def record_source (srcs : List String) (p : String) : List String :=
  if p ∈ srcs then srcs else srcs ++ [p]

/-- `MainApp._merge_into_viewer` at the state level: merge the new frame into
the backing frame, refresh with the current filter state, then record the
source path (at most once). -/
def merge_into_viewer (s : ViewerState) (ndf : DataFrame) (path : String) :
    ViewerState :=
  let s1 := on_search_state { s with df := merge_into s.df ndf }
  { s1 with source_files := record_source s1.source_files path }

/-- `MainApp.save_session`: capture title and recorded sources of every open
viewer. -/
def save_session (viewers : List ViewerState) : List SessionEntry :=
  viewers.map fun v => { title := v.plan_name, sources := v.source_files }

/-- The cell of the row labelled `idx` (first such row) at column `c`. -/
def DataFrame.cellOfLabel (df : DataFrame) (idx : Nat) (c : String) : Cell :=
  match df.rows.find? (fun r => r.1 == idx) with
  | some r => cellOfCells df.columns r.2 c
  | none => none

/-- The cell of the row at position `j` (in storage order) at column `c`. -/
def DataFrame.cellAtPos (df : DataFrame) (j : Nat) (c : String) : Cell :=
  match (df.rows.map Prod.snd)[j]?, colIndex? c df.columns with
  | some cs, some k => cs.getD k none
  | _, _ => none

/-- The ordering claim C2 attributes to the sort engine: every row compared
by the stringified cell value with a NaN key compared as the empty string
(no special pinning of NaN rows); `rowLe`, whose `getD ""` is exactly that
stringification, is reused as the comparison. -/
def computeOrderClaim (df : DataFrame) (col : String) (asc : Bool) : DataFrame :=
  let sorted := insertionSortBy (rowLe df col) df.rows
  { df with rows := if asc then sorted else sorted.reverse }

/-- The visibility predicate claim C3 attributes to the filter engine: the
active column's value, stringified with null becoming the empty string and
case-folded, must contain the case-folded search term. -/
def claimVisible (df : DataFrame) (r : Nat × List Cell) (col term : String) :
    Bool :=
  strContains
    (lowerStr (match cellOfCells df.columns r.2 col with
      | none => ""
      | some s => s))
    (lowerStr term)

/-- Errors of the update operation as claim C4 describes it. -/
inductive UpdateError where
  | notFound
  | unknownColumn
deriving Repr, DecidableEq

/-- The update operation as claim C4 describes it: `NotFound` when the id
does not identify an existing row, `UnknownColumn` when the column is not in
the dataset's columns, otherwise the in-place cell update. -/
def updateCellClaim (df : DataFrame) (idx : Nat) (col : String) (v : String) :
    Except UpdateError DataFrame :=
  if df.rows.any (fun r => r.1 == idx) then
    if decide (col ∈ df.columns) then
      Except.ok (updateAt df idx col v)
    else Except.error UpdateError.unknownColumn
  else Except.error UpdateError.notFound

/-- Deletion as claim C6 describes it: ids not present are silently ignored,
matching rows are removed, survivors are renumbered to a dense range in
their prior relative order. -/
def deleteRowsClaim (df : DataFrame) (ids : List Nat) : DataFrame :=
  resetIndex { df with rows := df.rows.filter fun r => !(ids.contains r.1) }

/-- Restoration of one session entry as claim C1 describes it: load the
first listed source, then merge each subsequent source in order; a source
that fails to load is skipped and restoration continues with the remaining
sources of the entry. -/
def restoreEntryMerging (load : String → Option DataFrame)
    (sources : List String) : Option DataFrame :=
  sources.foldl
    (fun acc s =>
      match load s with
      | none => acc
      | some d =>
          match acc with
          | none => some d
          | some b => some (merge_into b d))
    none

/-- Concrete frame: one text column, one row. -/
def dfA : DataFrame := { columns := ["Task"], rows := [(0, [some "t1"])] }

/-- Concrete frame: a different single column, one row. -/
def dfB : DataFrame := { columns := ["Owner"], rows := [(0, [some "o1"])] }

/-- Concrete loader for the session claims: two locators load, the rest
fail. -/
def exLoad : String → Option DataFrame := fun s =>
  if s = "a.xlsx" then some dfA else if s = "b.xlsx" then some dfB else none

/-- Concrete frame for the sort claim: a text cell and a NaN cell. -/
def exDfS : DataFrame :=
  { columns := ["A"], rows := [(0, [some "b"]), (1, [none])] }

/-- Concrete frame with two rows of equal sort key, for the descending
stability check. -/
def exDfT : DataFrame :=
  { columns := ["A"], rows := [(0, [some "a"]), (1, [some "a"])] }

/-- Concrete frame for the filter claim: a single NaN cell. -/
def exDfN : DataFrame := { columns := ["A"], rows := [(0, [none])] }

/-- Concrete frame for the update and delete claims. -/
def exDfD : DataFrame := { columns := ["Task"], rows := [(0, [some "t0"])] }

/-- Concrete five-row frame with dense labels, for the delete claim. -/
def exDf5 : DataFrame :=
  { columns := ["Task"],
    rows := [(0, [some "r0"]), (1, [some "r1"]), (2, [some "r2"]),
             (3, [some "r3"]), (4, [some "r4"])] }

/-- Concrete frame without a status-like column, for the mark-done claim. -/
def exDf9 : DataFrame :=
  { columns := ["Task", "Priority"],
    rows := [(0, [some "t0", some "High"]), (1, [some "t1", some "Low"])] }

/-- Concrete merge operands following the column-union example of the spec:
base columns `Task, Due`; incoming columns `Due, Owner`. -/
def exBase : DataFrame :=
  { columns := ["Task", "Due"], rows := [(0, [some "t0", some "d0"])] }

/-- Incoming operand of the concrete merge example. -/
def exInc : DataFrame :=
  { columns := ["Due", "Owner"],
    rows := [(0, [some "d1", some "o1"]), (1, [some "d2", some "o2"])] }

/-- Concrete viewer state used by witnesses. -/
def exState : ViewerState :=
  { plan_name := "plan"
    df := exDfD
    filtered_df := exDfD
    active_column := none
    search_raw := ""
    sort_col := none
    sort_asc := true
    source_files := ["a.xlsx"] }

/-- The viewer state after deleting the only row of `exState`. -/
def exStateDel : ViewerState :=
  { exState with df := { columns := ["Task"], rows := [] } }

/-!  Helper lemmas about the supporting definitions. -/

theorem colIndex?_eq_none {c : String} {l : List String} :
    colIndex? c l = none ↔ c ∉ l := by
  induction l with
  | nil => simp [colIndex?]
  | cons x xs ih =>
      by_cases hx : x = c
      · subst hx
        simp [colIndex?]
      · rw [colIndex?, if_neg hx, Option.map_eq_none', ih]
        constructor
        · intro h hm
          rcases List.mem_cons.mp hm with h1 | h1
          · exact hx h1.symm
          · exact h h1
        · intro h hc
          exact h (List.mem_cons_of_mem _ hc)

theorem colIndex?_getElem? {c : String} {l : List String} {k : Nat}
    (h : colIndex? c l = some k) : l[k]? = some c := by
  induction l generalizing k with
  | nil => simp [colIndex?] at h
  | cons x xs ih =>
      by_cases hx : x = c
      · rw [colIndex?, if_pos hx] at h
        cases h
        simp [hx]
      · rw [colIndex?, if_neg hx] at h
        rcases Option.map_eq_some'.mp h with ⟨k0, hk0, hkk⟩
        subst hkk
        simpa using ih hk0

theorem colIndex?_lt_length {c : String} {l : List String} {k : Nat}
    (h : colIndex? c l = some k) : k < l.length := by
  induction l generalizing k with
  | nil => simp [colIndex?] at h
  | cons x xs ih =>
      by_cases hx : x = c
      · rw [colIndex?, if_pos hx] at h
        cases h
        simp
      · rw [colIndex?, if_neg hx] at h
        rcases Option.map_eq_some'.mp h with ⟨k0, hk0, hkk⟩
        subst hkk
        simpa using ih hk0

theorem colIndex?_isSome_of_mem {c : String} {l : List String} (h : c ∈ l) :
    (colIndex? c l).isSome = true := by
  cases ho : colIndex? c l with
  | none => exact absurd h (colIndex?_eq_none.mp ho)
  | some k => rfl

theorem colIndex?_append_self {c : String} {l : List String} (h : c ∉ l) :
    colIndex? c (l ++ [c]) = some l.length := by
  induction l with
  | nil => simp [colIndex?]
  | cons x xs ih =>
      have hx : ¬ x = c := by
        intro he
        exact h (by rw [he]; exact List.mem_cons_self c xs)
      have hcs : c ∉ xs := fun hc => h (List.mem_cons_of_mem _ hc)
      rw [List.cons_append, colIndex?, if_neg hx, ih hcs]
      rfl

theorem cellOfCells_eq {cols : List String} {c : String} {k : Nat}
    (cs : List Cell) (h : colIndex? c cols = some k) :
    cellOfCells cols cs c = cs.getD k none := by
  simp only [cellOfCells, h]

theorem cellOfCells_eq_none {cols : List String} {c : String}
    (cs : List Cell) (h : c ∉ cols) :
    cellOfCells cols cs c = none := by
  simp only [cellOfCells, colIndex?_eq_none.mpr h]

theorem cellOfLabel_eq {df : DataFrame} {idx : Nat} {r : Nat × List Cell}
    (h : df.rows.find? (fun x => x.1 == idx) = some r) (c : String) :
    df.cellOfLabel idx c = cellOfCells df.columns r.2 c := by
  simp only [DataFrame.cellOfLabel, h]

theorem cellAtPos_eq {df : DataFrame} {j : Nat} {c : String} {cs : List Cell}
    {k : Nat} (h1 : (df.rows.map Prod.snd)[j]? = some cs)
    (h2 : colIndex? c df.columns = some k) :
    df.cellAtPos j c = cs.getD k none := by
  simp only [DataFrame.cellAtPos, h1, h2]

theorem find?_eq_some_split {α : Type _} {p : α → Bool} {l : List α} {c : α}
    (h : l.find? p = some c) :
    p c = true ∧ ∃ l₁ l₂, l = l₁ ++ c :: l₂ ∧ ∀ x ∈ l₁, p x = false := by
  induction l with
  | nil => simp [List.find?] at h
  | cons a l ih =>
      by_cases ha : p a = true
      · rw [List.find?_cons_of_pos _ ha] at h
        cases h
        exact ⟨ha, [], l, rfl, by simp⟩
      · rw [List.find?_cons_of_neg _ ha] at h
        rcases ih h with ⟨hp, l₁, l₂, heq, hall⟩
        refine ⟨hp, a :: l₁, l₂, by rw [heq, List.cons_append], ?_⟩
        intro x hx
        rcases List.mem_cons.mp hx with rfl | hx
        · exact Bool.not_eq_true (p x) ▸ ha
        · exact hall x hx

theorem find?_label_map (g : Nat × List Cell → Nat × List Cell)
    (hg : ∀ r, (g r).1 = r.1) (idx : Nat) (l : List (Nat × List Cell)) :
    (l.map g).find? (fun r => r.1 == idx)
      = (l.find? fun r => r.1 == idx).map g := by
  induction l with
  | nil => rfl
  | cons r l ih =>
      rw [List.map_cons, List.find?_cons, List.find?_cons, hg r]
      by_cases hr : (r.1 == idx) = true
      · rw [hr]
        rfl
      · rw [Bool.not_eq_true] at hr
        rw [hr]
        exact ih

theorem dedupFirstAux_congr :
    ∀ (l : List String) {seen₁ seen₂ : List String},
      (∀ x, x ∈ seen₁ ↔ x ∈ seen₂) →
      dedupFirstAux seen₁ l = dedupFirstAux seen₂ l := by
  intro l
  induction l with
  | nil => intro seen₁ seen₂ _; rfl
  | cons c cs ih =>
      intro seen₁ seen₂ h
      rw [dedupFirstAux, dedupFirstAux]
      by_cases hc : c ∈ seen₁
      · rw [if_pos hc, if_pos ((h c).mp hc)]
        exact ih h
      · rw [if_neg hc, if_neg fun hx => hc ((h c).mpr hx)]
        exact congrArg (c :: ·) (ih fun x => by simp [List.mem_cons, h x])

theorem dedupFirstAux_append :
    ∀ (l₁ : List String) {seen : List String} (l₂ : List String),
      dedupFirstAux seen (l₁ ++ l₂)
        = dedupFirstAux seen l₁ ++ dedupFirstAux (l₁ ++ seen) l₂ := by
  intro l₁
  induction l₁ with
  | nil => intro seen l₂; rfl
  | cons c cs ih =>
      intro seen l₂
      rw [List.cons_append, dedupFirstAux, dedupFirstAux]
      by_cases hc : c ∈ seen
      · rw [if_pos hc, if_pos hc, ih]
        refine congrArg (dedupFirstAux seen cs ++ ·) ?_
        refine dedupFirstAux_congr l₂ fun x => ?_
        simp only [List.mem_append, List.mem_cons]
        constructor
        · rintro (h1 | h1)
          · exact Or.inl (Or.inr h1)
          · exact Or.inr h1
        · rintro ((rfl | h1) | h1)
          · exact Or.inr hc
          · exact Or.inl h1
          · exact Or.inr h1
      · rw [if_neg hc, if_neg hc, ih, List.cons_append]
        refine congrArg (c :: ·) (congrArg (dedupFirstAux (c :: seen) cs ++ ·) ?_)
        refine dedupFirstAux_congr l₂ fun x => ?_
        simp only [List.mem_append, List.mem_cons]
        tauto

theorem dedupFirstAux_nodup_filter :
    ∀ (l : List String) {seen : List String}, l.Nodup →
      dedupFirstAux seen l = l.filter fun x => decide (x ∉ seen) := by
  intro l
  induction l with
  | nil => intro seen _; rfl
  | cons c cs ih =>
      intro seen h
      rcases List.nodup_cons.mp h with ⟨hc0, hcs⟩
      rw [dedupFirstAux, List.filter_cons]
      by_cases hc : c ∈ seen
      · rw [if_pos hc, ih hcs]
        have hd : (decide (c ∉ seen)) = false := by simp [hc]
        rw [hd]
        simp
      · rw [if_neg hc, ih hcs]
        have hd : (decide (c ∉ seen)) = true := by simp [hc]
        rw [hd]
        simp only [if_true]
        refine congrArg (c :: ·) (List.filter_congr fun x hx => ?_)
        have hxc : ¬ x = c := fun he => hc0 (he ▸ hx)
        simp [List.mem_cons, hxc]

theorem mem_dedupFirstAux :
    ∀ (l : List String) {seen : List String} {x : String},
      x ∈ dedupFirstAux seen l ↔ x ∈ l ∧ x ∉ seen := by
  intro l
  induction l with
  | nil => intro seen x; simp [dedupFirstAux]
  | cons c cs ih =>
      intro seen x
      rw [dedupFirstAux]
      by_cases hc : c ∈ seen
      · rw [if_pos hc, ih]
        simp only [List.mem_cons]
        constructor
        · rintro ⟨h1, h2⟩
          exact ⟨Or.inr h1, h2⟩
        · rintro ⟨rfl | h1, h2⟩
          · exact absurd hc h2
          · exact ⟨h1, h2⟩
      · rw [if_neg hc]
        simp only [List.mem_cons, ih, List.mem_cons]
        constructor
        · rintro (rfl | ⟨h1, h2⟩)
          · exact ⟨Or.inl rfl, hc⟩
          · exact ⟨Or.inr h1, fun hx => h2 (Or.inr hx)⟩
        · rintro ⟨rfl | h1, h2⟩
          · exact Or.inl rfl
          · by_cases hxc : x = c
            · exact Or.inl hxc
            · exact Or.inr ⟨h1, fun hx => hx.elim hxc h2⟩

theorem mem_dedupFirst {l : List String} {x : String} :
    x ∈ dedupFirst l ↔ x ∈ l := by
  rw [dedupFirst, mem_dedupFirstAux]
  simp

theorem dedupFirst_append {l₁ l₂ : List String} (h₁ : l₁.Nodup)
    (h₂ : l₂.Nodup) :
    dedupFirst (l₁ ++ l₂) = l₁ ++ l₂.filter fun c => decide (c ∉ l₁) := by
  rw [dedupFirst, dedupFirstAux_append l₁ l₂, List.append_nil,
    dedupFirstAux_nodup_filter l₂ h₂]
  refine congrArg (· ++ l₂.filter fun c => decide (c ∉ l₁)) ?_
  rw [dedupFirstAux_nodup_filter l₁ h₁]
  exact List.filter_eq_self.mpr fun a _ => by simp

theorem orderedInsertBy_perm {α : Type _} (le : α → α → Bool) (a : α) :
    ∀ l : List α, (orderedInsertBy le a l).Perm (a :: l) := by
  intro l
  induction l with
  | nil => exact List.Perm.refl _
  | cons b l ih =>
      rw [orderedInsertBy]
      by_cases h : le a b = true
      · rw [if_pos h]
      · rw [if_neg h]
        exact (ih.cons b).trans (List.Perm.swap a b l)

theorem insertionSortBy_perm {α : Type _} (le : α → α → Bool) :
    ∀ l : List α, (insertionSortBy le l).Perm l := by
  intro l
  induction l with
  | nil => exact List.Perm.refl _
  | cons a l ih =>
      rw [insertionSortBy]
      exact (orderedInsertBy_perm le a _).trans (ih.cons a)

theorem orderedInsertBy_pairwise {α : Type _} {le : α → α → Bool}
    (htot : ∀ a b, le a b = true ∨ le b a = true)
    (htrans : ∀ a b c, le a b = true → le b c = true → le a c = true) (a : α) :
    ∀ {l : List α}, l.Pairwise (fun x y => le x y = true) →
      (orderedInsertBy le a l).Pairwise (fun x y => le x y = true) := by
  intro l
  induction l with
  | nil =>
      intro _
      simp [orderedInsertBy]
  | cons b l ih =>
      intro hp
      rw [orderedInsertBy]
      by_cases hab : le a b = true
      · rw [if_pos hab]
        refine List.pairwise_cons.mpr ⟨?_, hp⟩
        intro x hx
        rcases List.mem_cons.mp hx with rfl | hx
        · exact hab
        · exact htrans a b x hab ((List.pairwise_cons.mp hp).1 x hx)
      · rw [if_neg hab]
        rcases htot a b with h | h
        · exact absurd h hab
        refine List.pairwise_cons.mpr ⟨?_, ih (List.pairwise_cons.mp hp).2⟩
        intro x hx
        have hx2 : x ∈ a :: l := (orderedInsertBy_perm le a l).mem_iff.mp hx
        rcases List.mem_cons.mp hx2 with rfl | hx2
        · exact h
        · exact (List.pairwise_cons.mp hp).1 x hx2

theorem insertionSortBy_pairwise {α : Type _} {le : α → α → Bool}
    (htot : ∀ a b, le a b = true ∨ le b a = true)
    (htrans : ∀ a b c, le a b = true → le b c = true → le a c = true) :
    ∀ l : List α, (insertionSortBy le l).Pairwise (fun x y => le x y = true) := by
  intro l
  induction l with
  | nil => simp [insertionSortBy]
  | cons a l ih =>
      rw [insertionSortBy]
      exact orderedInsertBy_pairwise htot htrans a ih

theorem rowLe_total (df : DataFrame) (col : String) (a b : Nat × List Cell) :
    rowLe df col a b = true ∨ rowLe df col b a = true := by
  rcases le_total ((rowKey df col a).getD "").data ((rowKey df col b).getD "").data
    with h | h
  · exact Or.inl (by simp [rowLe, strLe, h])
  · exact Or.inr (by simp [rowLe, strLe, h])

theorem rowLe_trans (df : DataFrame) (col : String) (a b c : Nat × List Cell)
    (h1 : rowLe df col a b = true) (h2 : rowLe df col b c = true) :
    rowLe df col a c = true := by
  simp only [rowLe, strLe, decide_eq_true_eq] at h1 h2 ⊢
  exact le_trans h1 h2

theorem foldl_updateAt (col v : String) (j : Nat) (ids : List Nat) :
    ∀ df : DataFrame, colIndex? col df.columns = some j →
      ids.foldl (fun d i => updateAt d i col v) df
        = { df with rows := df.rows.map fun r =>
              if r.1 ∈ ids then (r.1, r.2.set j (some v)) else r } := by
  induction ids with
  | nil =>
      intro df _
      simp
  | cons i ids ih =>
      intro df hcol
      rw [List.foldl_cons]
      by_cases hany : (df.rows.any fun r => r.1 == i) = true
      · have hupd : updateAt df i col v
            = { df with rows := df.rows.map fun r =>
                  if r.1 = i then (r.1, r.2.set j (some v)) else r } := by
          simp only [updateAt, hany, if_true, hcol]
        rw [hupd, ih (DataFrame.mk df.columns (df.rows.map fun r =>
          if r.1 = i then (r.1, r.2.set j (some v)) else r)) hcol]
        refine congrArg (fun z => DataFrame.mk df.columns z) ?_
        rw [List.map_map]
        refine List.map_congr_left fun r _ => ?_
        by_cases hri : r.1 = i
        · by_cases hmem : r.1 ∈ ids
          · simp [Function.comp, hri, hmem, List.set_set]
          · simp [Function.comp, hri, hmem, List.mem_cons]
        · by_cases hmem : r.1 ∈ ids
          · simp [Function.comp, hri, hmem, List.mem_cons]
          · simp [Function.comp, hri, hmem, List.mem_cons]
      · have hupd : updateAt df i col v = df := by
          simp only [updateAt, hany, if_false]
          exact if_neg (by simp [hany])
        rw [hupd, ih df hcol]
        refine congrArg (fun z => DataFrame.mk df.columns z) ?_
        refine List.map_congr_left fun r hr => ?_
        have hri : ¬ r.1 = i := by
          intro he
          exact (by simp [hany] : ¬ (df.rows.any fun x => x.1 == i) = true)
            (List.any_eq_true.mpr ⟨r, hr, by simp [he]⟩)
        simp [List.mem_cons, hri]

theorem record_source_nodup {srcs : List String} (p : String)
    (h : srcs.Nodup) : (record_source srcs p).Nodup := by
  rw [record_source]
  by_cases hp : p ∈ srcs
  · rw [if_pos hp]
    exact h
  · rw [if_neg hp]
    refine List.nodup_append.mpr ⟨h, List.nodup_singleton p, ?_⟩
    intro a ha hb
    rw [List.mem_singleton] at hb
    subst hb
    exact hp ha

theorem merge_fold_sources (ms : List (DataFrame × String)) :
    ∀ s : ViewerState,
      (ms.foldl (fun st m => merge_into_viewer st m.1 m.2) s).source_files
        = ms.foldl (fun l m => record_source l m.2) s.source_files := by
  induction ms with
  | nil => intro s; rfl
  | cons m ms ih =>
      intro s
      rw [List.foldl_cons, List.foldl_cons, ih]
      rfl

theorem foldl_record_source_nodup (ms : List (DataFrame × String)) :
    ∀ {l : List String}, l.Nodup →
      (ms.foldl (fun l m => record_source l m.2) l).Nodup := by
  induction ms with
  | nil => intro l h; exact h
  | cons m ms ih =>
      intro l h
      rw [List.foldl_cons]
      exact ih (record_source_nodup m.2 h)

/-!  The claims.  Each claim of the specification gets exactly one theorem
(with a witness when it carries hypotheses), plus a counterexample when the
claim fails on the code as stated. -/

/-- Claim C1 (code bug).  The claim and the spec (section 4.6) say that
`restore` rebuilds each session entry by loading its first listed source and
then merging every subsequent listed source in order.  The code
(`MainApp.load_session`) instead opens the entry from the first source that
loads successfully and `break`s, ignoring all remaining recorded sources —
although `_merge_into_viewer` deliberately records every merged source "for
session persistence".  Concretely: for an entry listing two loadable
sources, the code restores only the first (single-column) frame while the
described behaviour produces the two-column merge; the code does honour the
skip-on-failure part and does continue with the other entries. -/
theorem load_session_first_source_only :
    restoreEntry exLoad ["a.xlsx", "b.xlsx"] = some dfA ∧
    restoreEntryMerging exLoad ["a.xlsx", "b.xlsx"]
      = some (merge_into dfA dfB) ∧
    merge_into dfA dfB ≠ dfA ∧
    restoreEntry exLoad ["missing.xlsx", "b.xlsx"] = some dfB ∧
    restoreSession exLoad [⟨"p1", ["missing.xlsx"]⟩, ⟨"p2", ["a.xlsx"]⟩]
      = [dfA] :=
  ⟨rfl, rfl, by decide, rfl, rfl⟩

/-- Claim C4, counterexample.  The claim says an update with a stale id fails
with `NotFound` and is not silently ignored; the update loop of
`mark_selected_done` silently skips a label absent from the index and the
frame is returned unchanged, while the claimed behaviour yields the error. -/
theorem update_stale_id_counterexample :
    updateAt exDfD 5 "Task" "Done" = exDfD ∧
    updateCellClaim exDfD 5 "Task" "Done"
      = Except.error UpdateError.notFound :=
  ⟨by decide, rfl⟩

/-- Claim C4, amended.  A cell update whose id does not identify an existing
row is silently ignored (the frame is unchanged, no `NotFound`); with an
existing id but an unknown column the column is appended (pandas `.at`
enlargement) rather than failing with `UnknownColumn` — though that path is
unreachable from `mark_selected_done`, which ensures a status column
first. -/
theorem update_silently_ignores (df : DataFrame) (idx : Nat) (col v : String) :
    ((∀ r ∈ df.rows, r.1 ≠ idx) → updateAt df idx col v = df) ∧
    ((∃ r ∈ df.rows, r.1 = idx) → col ∉ df.columns →
      (updateAt df idx col v).columns = df.columns ++ [col]) := by
  constructor
  · intro h
    have hany : ¬ ((df.rows.any fun r => r.1 == idx) = true) := by
      rw [List.any_eq_true]
      rintro ⟨r, hr, hb⟩
      exact h r hr (by simpa using hb)
    rw [updateAt, if_neg hany]
  · rintro ⟨r, hr, hidx⟩ hcol
    have hany : (df.rows.any fun x => x.1 == idx) = true :=
      List.any_eq_true.mpr ⟨r, hr, by simp [hidx]⟩
    have hnone : colIndex? col df.columns = none := colIndex?_eq_none.mpr hcol
    simp only [updateAt, hany, if_true, hnone]

/-- Witness for the amended claim C4 at concrete inputs: updating the stale
id 5 of a one-row frame leaves it unchanged; updating row 0 at the absent
column `Extra` appends that column. -/
theorem update_silently_ignores_witness :
    updateAt exDfD 5 "Task" "Done" = exDfD ∧
    (updateAt exDfD 0 "Extra" "x").columns = ["Task", "Extra"] :=
  ⟨(update_silently_ignores exDfD 5 "Task" "Done").1 (by decide),
   (update_silently_ignores exDfD 0 "Extra" "x").2
     ⟨(0, [some "t0"]), by decide, rfl⟩ (by decide)⟩

/-- Claim C6, counterexample.  The claim says ids not present are silently
ignored; pandas `drop` raises `KeyError` instead, so deleting the absent id
5 from a one-row frame fails entirely rather than returning the frame with
the id ignored. -/
theorem delete_missing_id_counterexample :
    dropReset exDfD [5] = Except.error "KeyError" ∧
    deleteRowsClaim exDfD [5] = exDfD ∧
    dropReset exDfD [5] ≠ Except.ok (deleteRowsClaim exDfD [5]) := by
  refine ⟨rfl, by decide, ?_⟩
  intro h
  have h2 : dropReset exDfD [5] = Except.error "KeyError" := rfl
  rw [h] at h2
  exact Except.noConfusion h2

/-- Claim C6, amended.  When every requested id is present, `delete_selected`
removes the matching rows and renumbers the survivors to a dense `0..N-1`
range in their prior relative order; when some id is absent the whole delete
fails with `KeyError` (nothing is removed) instead of silently ignoring the
id. -/
theorem delete_behavior (df : DataFrame) (ids : List Nat) :
    ((∀ i ∈ ids, ∃ r ∈ df.rows, r.1 = i) →
      ∃ d, dropReset df ids = Except.ok d ∧
        d.columns = df.columns ∧
        d.rows.map Prod.snd
          = (df.rows.filter fun r => !(ids.contains r.1)).map Prod.snd ∧
        d.rows.map Prod.fst = List.range d.rows.length) ∧
    ((∃ i ∈ ids, ∀ r ∈ df.rows, r.1 ≠ i) →
      dropReset df ids = Except.error "KeyError") := by
  constructor
  · intro h
    have hall : (ids.all fun i => df.rows.any fun r => r.1 == i) = true := by
      rw [List.all_eq_true]
      intro i hi
      rcases h i hi with ⟨r, hr, he⟩
      exact List.any_eq_true.mpr ⟨r, hr, by simp [he]⟩
    refine ⟨resetIndex
        { df with rows := df.rows.filter fun r => !(ids.contains r.1) },
      ?_, rfl, ?_, ?_⟩
    · rw [dropReset, dropRows, if_pos hall]
      rfl
    · simp [resetIndex, List.enum_map_snd]
    · simp [resetIndex, List.enum_map_fst, List.enum_length]
  · rintro ⟨i, hi, hnone⟩
    have hall : ¬ ((ids.all fun i => df.rows.any fun r => r.1 == i) = true) := by
      rw [List.all_eq_true]
      intro hforall
      rcases List.any_eq_true.mp (hforall i hi) with ⟨r, hr, hb⟩
      exact hnone r hr (by simpa using hb)
    rw [dropReset, dropRows, if_neg hall]
    rfl

/-- Witness for the amended claim C6: deleting id 2 from the five-row frame
with ids 0..4 succeeds and yields four rows with dense ids 0..3 carrying the
surviving cells in their prior relative order. -/
theorem delete_behavior_witness :
    (∀ i ∈ [2], ∃ r ∈ exDf5.rows, r.1 = i) ∧
    (∃ d, dropReset exDf5 [2] = Except.ok d ∧
      d.columns = exDf5.columns ∧
      d.rows.map Prod.snd
        = (exDf5.rows.filter fun r => !(([2] : List Nat).contains r.1)).map Prod.snd ∧
      d.rows.map Prod.fst = List.range d.rows.length) :=
  ⟨by decide, (delete_behavior exDf5 [2]).1 (by decide)⟩

/-- Claim C10.  Starting from a viewer whose recorded source list has no
duplicates (new viewers start with at most one source), any sequence of
merges — including merging the same file path repeatedly — keeps the
recorded list duplicate-free, so the session descriptor captured by
`save_session` lists each source locator at most once for that entry. -/
theorem merged_sources_nodup (s : ViewerState) (ms : List (DataFrame × String))
    (h : s.source_files.Nodup) :
    (ms.foldl (fun st m => merge_into_viewer st m.1 m.2) s).source_files.Nodup ∧
    (∀ e ∈ save_session [ms.foldl (fun st m => merge_into_viewer st m.1 m.2) s],
      ∀ p, e.sources.count p ≤ 1) := by
  have h1 : (ms.foldl (fun st m => merge_into_viewer st m.1 m.2) s).source_files.Nodup := by
    rw [merge_fold_sources]
    exact foldl_record_source_nodup ms h
  refine ⟨h1, ?_⟩
  intro e he p
  simp only [save_session, List.map_cons, List.map_nil,
    List.mem_singleton] at he
  subst he
  exact List.nodup_iff_count_le_one.mp h1 p

/-- Witness for claim C10: merging `b.xlsx` twice into a viewer that already
records `a.xlsx` leaves exactly `[a.xlsx, b.xlsx]`, duplicate-free, even
though each merge appended the incoming rows again. -/
theorem merged_sources_nodup_witness :
    (([(dfB, "b.xlsx"), (dfB, "b.xlsx")].foldl
        (fun st m => merge_into_viewer st m.1 m.2) exState).source_files.Nodup) ∧
    (([(dfB, "b.xlsx"), (dfB, "b.xlsx")].foldl
        (fun st m => merge_into_viewer st m.1 m.2) exState).source_files
      = ["a.xlsx", "b.xlsx"]) :=
  ⟨(merged_sources_nodup exState [(dfB, "b.xlsx"), (dfB, "b.xlsx")]
      (by decide)).1,
   by decide⟩

/-- Claim C5.  The mutation statements of the insert, mark-done and delete
handlers touch only the backing frame: the derived `filtered_df` view and
the filter/sort selections are untouched by the mutation itself, and the
handlers recompute the view only through the separate, explicit
`on_search` refresh call that follows the mutation. -/
theorem mutation_preserves_view (s : ViewerState) (vals : List String)
    (ids dids : List Nat) (t : ViewerState)
    (hdel : delete_mutate s dids = Except.ok t) :
    (confirm_add_mutate s vals).filtered_df = s.filtered_df ∧
    (confirm_add_mutate s vals).active_column = s.active_column ∧
    (confirm_add_mutate s vals).search_raw = s.search_raw ∧
    (confirm_add_mutate s vals).sort_col = s.sort_col ∧
    (mark_done_mutate s ids).filtered_df = s.filtered_df ∧
    (mark_done_mutate s ids).sort_col = s.sort_col ∧
    t.filtered_df = s.filtered_df ∧
    handler_add s vals = on_search_state (confirm_add_mutate s vals) ∧
    handler_mark_done s ids = on_search_state (mark_done_mutate s ids) := by
  refine ⟨rfl, rfl, rfl, rfl, rfl, rfl, ?_, rfl, rfl⟩
  rw [delete_mutate] at hdel
  cases he : dropReset s.df dids with
  | error e =>
      rw [he] at hdel
      simp [Except.map] at hdel
  | ok d =>
      rw [he] at hdel
      simp only [Except.map, Except.ok.injEq] at hdel
      rw [← hdel]

/-- Witness for claim C5 at concrete inputs, with the delete succeeding. -/
theorem mutation_preserves_view_witness :
    delete_mutate exState [0] = Except.ok exStateDel ∧
    (confirm_add_mutate exState ["x"]).filtered_df = exState.filtered_df ∧
    exStateDel.filtered_df = exState.filtered_df :=
  ⟨rfl,
   (mutation_preserves_view exState ["x"] [0] [0] exStateDel rfl).1,
   (mutation_preserves_view exState ["x"] [0] [0] exStateDel rfl).2.2.2.2.2.2.1⟩

/-- Claim C3, counterexample.  The claim stringifies a null cell as the
empty string; pandas `astype(str)` renders NaN as the string `"nan"`, so a
row whose active-column cell is null is visible for the search term `nan`
although the claimed predicate (an empty string containing `"nan"`) is
false. -/
theorem filter_nan_counterexample :
    ((0, [(none : Cell)]) : Nat × List Cell)
        ∈ (on_search_filter exDfN "nan" (some "A")).rows ∧
    claimVisible exDfN (0, [none]) "A" "nan" = false :=
  ⟨by decide, rfl⟩

/-- Claim C3, amended.  The search term reaches pandas `str.contains`,
which treats it as a regular expression (`regex=True` default), so "contains
as a substring" is the program's behaviour only for terms free of regex
metacharacters; the `regexLiteral` hypothesis scopes the statement (and the
model) to exactly those terms.  For them, with an active column, a row is
visible iff the column's value — stringified by `astype(str)`, which
renders null as the string `"nan"`, not the empty string — lower-cased,
contains the lower-cased and whitespace-stripped search term as a
substring; a term that is empty after stripping makes every row visible.
Terms with metacharacters are matched as regular expressions (or raise
`re.error`) and are outside this model. -/
theorem filter_visibility (df : DataFrame) (raw col : String)
    (r : Nat × List Cell) (hr : r ∈ df.rows)
    (_hlit : regexLiteral (stripStr (lowerStr raw)) = true) :
    r ∈ (on_search_filter df raw (some col)).rows ↔
      (stripStr (lowerStr raw) = "" ∨
        strContains (lowerStr (astypeStr (cellOfCells df.columns r.2 col)))
          (stripStr (lowerStr raw)) = true) := by
  rw [on_search_filter]
  by_cases hq : stripStr (lowerStr raw) = ""
  · simp [hq, hr]
  · simp [hq, List.mem_filter, hr]

/-- Witness for the amended claim C3: the null-cell row of the concrete
frame, searched with the metacharacter-free term `nan` (visible through the
`"nan"` stringification) and with the empty term (visible because the term
is empty). -/
theorem filter_visibility_witness :
    regexLiteral (stripStr (lowerStr "nan")) = true ∧
    regexLiteral (stripStr (lowerStr "")) = true ∧
    (((0, [(none : Cell)]) : Nat × List Cell) ∈ exDfN.rows) ∧
    (((0, [(none : Cell)]) : Nat × List Cell)
        ∈ (on_search_filter exDfN "nan" (some "A")).rows ↔
      (stripStr (lowerStr "nan") = "" ∨
        strContains (lowerStr (astypeStr (cellOfCells exDfN.columns [none] "A")))
          (stripStr (lowerStr "nan")) = true)) ∧
    (((0, [(none : Cell)]) : Nat × List Cell)
        ∈ (on_search_filter exDfN "" (some "A")).rows ↔
      (stripStr (lowerStr "") = "" ∨
        strContains (lowerStr (astypeStr (cellOfCells exDfN.columns [none] "A")))
          (stripStr (lowerStr "")) = true)) :=
  ⟨by decide, by decide, by decide,
   filter_visibility exDfN "nan" "A" (0, [none]) (by decide) (by decide),
   filter_visibility exDfN "" "A" (0, [none]) (by decide) (by decide)⟩

/-- Claim C2, counterexample.  The claim says a null cell is compared as the
empty string under ordinary lexicographic comparison, so ascending order
would put a null-key row before a `"b"`-key row; pandas `sort_values`
instead pins NaN rows to the end (`na_position` defaults to `'last'`), so
the code keeps the `"b"` row first. -/
theorem sort_claim_counterexample :
    (populate_tree_order exDfS (some "A") true).rows.map Prod.fst = [0, 1] ∧
    (computeOrderClaim exDfS "A" true).rows.map Prod.fst = [1, 0] ∧
    populate_tree_order exDfS (some "A") true ≠ computeOrderClaim exDfS "A" true :=
  ⟨by decide, by decide, by decide⟩

theorem orderedInsertBy_filter_key (df : DataFrame) (col v : String)
    (a : Nat × List Cell) :
    ∀ l : List (Nat × List Cell),
      (orderedInsertBy (rowLe df col) a l).filter
          (fun x => rowKey df col x == some v)
        = if (rowKey df col a == some v) = true
          then a :: l.filter (fun x => rowKey df col x == some v)
          else l.filter (fun x => rowKey df col x == some v) := by
  intro l
  induction l with
  | nil =>
      by_cases ha : (rowKey df col a == some v) = true
      · simp [orderedInsertBy, List.filter_cons, ha]
      · simp [orderedInsertBy, List.filter_cons, ha]
  | cons b l ih =>
      rw [orderedInsertBy]
      by_cases hab : rowLe df col a b = true
      · rw [if_pos hab]
        by_cases ha : (rowKey df col a == some v) = true
        · simp [List.filter_cons, ha]
        · simp [List.filter_cons, ha]
      · rw [if_neg hab]
        by_cases ha : (rowKey df col a == some v) = true
        · have hb : (rowKey df col b == some v) = false := by
            rw [Bool.eq_false_iff]
            intro hb
            apply hab
            have ha2 : rowKey df col a = some v := by simpa using ha
            have hb2 : rowKey df col b = some v := by simpa using hb
            simp [rowLe, strLe, ha2, hb2]
          simp [List.filter_cons, hb, ih, ha]
        · simp [List.filter_cons, ih, ha]

theorem insertionSortBy_filter_key (df : DataFrame) (col v : String) :
    ∀ l : List (Nat × List Cell),
      (insertionSortBy (rowLe df col) l).filter
          (fun x => rowKey df col x == some v)
        = l.filter fun x => rowKey df col x == some v := by
  intro l
  induction l with
  | nil => rfl
  | cons a l ih =>
      rw [insertionSortBy, orderedInsertBy_filter_key df col v a, ih]
      by_cases ha : (rowKey df col a == some v) = true
      · simp [List.filter_cons, ha]
      · simp [List.filter_cons, ha]

/-- Descending sort with tied keys keeps the original row order: pandas
`nargsort` reverses the rows, stable-sorts ascending and reverses the
result, so `kind='mergesort'` descending is stable too. -/
theorem sort_values_desc_stable_ties :
    (sort_values exDfT "A" false).rows.map Prod.fst = [0, 1] ∧
    (sort_values exDfT "A" true).rows.map Prod.fst = [0, 1] :=
  ⟨by decide, by decide⟩

/-- Claim C2, amended.  `populate_tree` sorts the rows whose sort-key cell is
not null by straightforward string comparison of the stringified values,
stably for either direction — for every fixed key value, the rows carrying
that key keep their original relative order, also when descending (pandas
`nargsort` reverses the rows, stable-sorts and reverses again) — and the
null-key rows are pinned to the end of the order, in their original
relative order, for either direction; they are not compared as empty
strings. -/
theorem sort_pins_nulls_last (df : DataFrame) (col : String) (asc : Bool)
    (hcol : col ∈ df.columns) :
    ∃ front : List (Nat × List Cell),
      (populate_tree_order df (some col) asc).rows
          = front ++ df.rows.filter (fun r => (rowKey df col r).isNone) ∧
      (∀ r ∈ front, (rowKey df col r).isSome = true) ∧
      front.Pairwise (fun a b =>
        (if asc then rowLe df col a b else rowLe df col b a) = true) ∧
      (∀ v : String, front.filter (fun x => rowKey df col x == some v)
          = df.rows.filter fun x => rowKey df col x == some v) ∧
      ((populate_tree_order df (some col) asc).rows).Perm df.rows := by
  have hpt : populate_tree_order df (some col) asc = sort_values df col asc := by
    simp [populate_tree_order, hcol]
  have hrows : (sort_values df col asc).rows
      = (if asc then insertionSortBy (rowLe df col)
              (df.rows.filter fun r => (rowKey df col r).isSome)
          else (insertionSortBy (rowLe df col)
              ((df.rows.filter fun r => (rowKey df col r).isSome)).reverse).reverse)
        ++ df.rows.filter (fun r => (rowKey df col r).isNone) := rfl
  have hperm1 : (if asc then insertionSortBy (rowLe df col)
        (df.rows.filter fun r => (rowKey df col r).isSome)
      else (insertionSortBy (rowLe df col)
        ((df.rows.filter fun r => (rowKey df col r).isSome)).reverse).reverse).Perm
      (df.rows.filter fun r => (rowKey df col r).isSome) := by
    cases asc with
    | true =>
        rw [if_pos rfl]
        exact insertionSortBy_perm _ _
    | false =>
        rw [if_neg Bool.false_ne_true]
        exact (List.reverse_perm _).trans
          ((insertionSortBy_perm _ _).trans (List.reverse_perm _))
  refine ⟨_, by rw [hpt, hrows], ?_, ?_, ?_, ?_⟩
  · intro r hr
    exact (List.mem_filter.mp (hperm1.mem_iff.mp hr)).2
  · cases asc with
    | true =>
        rw [if_pos rfl]
        refine List.Pairwise.imp ?_ (insertionSortBy_pairwise (rowLe_total df col)
          (fun a b c => rowLe_trans df col a b c) _)
        intro a b hab
        rw [if_pos rfl]
        exact hab
    | false =>
        rw [if_neg Bool.false_ne_true]
        refine List.Pairwise.imp ?_ (List.pairwise_reverse.mpr
          (insertionSortBy_pairwise (rowLe_total df col)
            (fun a b c => rowLe_trans df col a b c) _))
        intro a b hab
        rw [if_neg Bool.false_ne_true]
        exact hab
  · intro v
    cases asc with
    | true =>
        rw [if_pos rfl, insertionSortBy_filter_key, List.filter_filter]
        exact List.filter_congr fun x _ => by
          cases hx : rowKey df col x <;> simp [hx]
    | false =>
        rw [if_neg Bool.false_ne_true, List.filter_reverse,
          insertionSortBy_filter_key, List.filter_reverse,
          List.reverse_reverse, List.filter_filter]
        exact List.filter_congr fun x _ => by
          cases hx : rowKey df col x <;> simp [hx]
  · rw [hpt, hrows]
    have h2 := hperm1.append_right
      (df.rows.filter fun r => (rowKey df col r).isNone)
    refine h2.trans ?_
    have h3 : df.rows.filter (fun r => (rowKey df col r).isNone)
        = df.rows.filter fun r => !((rowKey df col r).isSome) :=
      List.filter_congr fun x _ => by cases rowKey df col x <;> rfl
    rw [h3]
    exact List.filter_append_perm _ df.rows

/-- Witness for the amended claim C2 at the concrete frame with one text row
and one null row, ascending. -/
theorem sort_pins_nulls_last_witness :
    ("A" ∈ exDfS.columns) ∧
    ∃ front : List (Nat × List Cell),
      (populate_tree_order exDfS (some "A") true).rows
          = front ++ exDfS.rows.filter (fun r => (rowKey exDfS "A" r).isNone) ∧
      (∀ r ∈ front, (rowKey exDfS "A" r).isSome = true) ∧
      front.Pairwise (fun a b =>
        (if true then rowLe exDfS "A" a b else rowLe exDfS "A" b a) = true) ∧
      (∀ v : String, front.filter (fun x => rowKey exDfS "A" x == some v)
          = exDfS.rows.filter fun x => rowKey exDfS "A" x == some v) ∧
      ((populate_tree_order exDfS (some "A") true).rows).Perm exDfS.rows :=
  ⟨by decide, sort_pins_nulls_last exDfS "A" true (by decide)⟩

theorem merge_into_columns (b i : DataFrame) :
    (merge_into b i).columns = dedupFirst (b.columns ++ i.columns) := rfl

theorem merge_into_rows_snd (b i : DataFrame) :
    (merge_into b i).rows.map Prod.snd
      = b.rows.map (fun r =>
          (dedupFirst (b.columns ++ i.columns)).map fun c =>
            match colIndex? c b.columns with
            | some j => r.2.getD j none
            | none => some "")
      ++ i.rows.map (fun r =>
          (dedupFirst (b.columns ++ i.columns)).map fun c =>
            match colIndex? c i.columns with
            | some j => r.2.getD j none
            | none => some "") := by
  simp only [merge_into, resetIndex, reindexColumns, List.enum_map_snd,
    List.map_append, List.map_map]
  rfl

/-- Claim C7.  Merging yields the base columns in their original order
followed by the incoming columns not already present, in their original
order; every column absent from one side is filled with the explicit empty
string (not null) for all of that side's rows. -/
theorem merge_columns_union_fill (b i : DataFrame)
    (hb : b.columns.Nodup) (hi : i.columns.Nodup) :
    (merge_into b i).columns
        = b.columns ++ i.columns.filter (fun c => decide (c ∉ b.columns)) ∧
    (∀ j, j < b.rows.length → ∀ c, c ∈ (merge_into b i).columns →
      c ∉ b.columns → (merge_into b i).cellAtPos j c = some "") ∧
    (∀ j, j < i.rows.length → ∀ c, c ∈ (merge_into b i).columns →
      c ∉ i.columns →
        (merge_into b i).cellAtPos (b.rows.length + j) c = some "") := by
  refine ⟨by rw [merge_into_columns]; exact dedupFirst_append hb hi, ?_, ?_⟩
  · intro j hj c hcU hcB
    obtain ⟨k, hk⟩ := Option.isSome_iff_exists.mp (colIndex?_isSome_of_mem hcU)
    have hkU := colIndex?_getElem? hk
    rw [merge_into_columns] at hkU
    have hcs : ((merge_into b i).rows.map Prod.snd)[j]?
        = some ((dedupFirst (b.columns ++ i.columns)).map fun c =>
            match colIndex? c b.columns with
            | some jb => (b.rows.get ⟨j, hj⟩).2.getD jb none
            | none => some "") := by
      rw [merge_into_rows_snd, List.getElem?_append, if_pos (by simpa using hj),
        List.getElem?_map, List.getElem?_eq_getElem hj]
      rfl
    rw [cellAtPos_eq hcs hk, List.getD_eq_getElem?_getD, List.getElem?_map, hkU]
    simp only [Option.map_some', Option.getD_some]
    rw [colIndex?_eq_none.mpr hcB]
  · intro j hj c hcU hcI
    obtain ⟨k, hk⟩ := Option.isSome_iff_exists.mp (colIndex?_isSome_of_mem hcU)
    have hkU := colIndex?_getElem? hk
    rw [merge_into_columns] at hkU
    have hcs : ((merge_into b i).rows.map Prod.snd)[b.rows.length + j]?
        = some ((dedupFirst (b.columns ++ i.columns)).map fun c =>
            match colIndex? c i.columns with
            | some ji => (i.rows.get ⟨j, hj⟩).2.getD ji none
            | none => some "") := by
      rw [merge_into_rows_snd, List.getElem?_append,
        if_neg (by simp), List.length_map, Nat.add_sub_cancel_left,
        List.getElem?_map, List.getElem?_eq_getElem hj]
      rfl
    rw [cellAtPos_eq hcs hk, List.getD_eq_getElem?_getD, List.getElem?_map, hkU]
    simp only [Option.map_some', Option.getD_some]
    rw [colIndex?_eq_none.mpr hcI]

/-- Witness for claim C7 at the spec's example: base columns `Task, Due`,
incoming columns `Due, Owner`; the union is `Task, Due, Owner`, the base row
gets `""` at `Owner`, the incoming rows get `""` at `Task`. -/
theorem merge_columns_union_fill_witness :
    exBase.columns.Nodup ∧ exInc.columns.Nodup ∧
    (merge_into exBase exInc).columns
      = exBase.columns
        ++ exInc.columns.filter (fun c => decide (c ∉ exBase.columns)) ∧
    (merge_into exBase exInc).columns = ["Task", "Due", "Owner"] ∧
    (merge_into exBase exInc).cellAtPos 0 "Owner" = some "" ∧
    (merge_into exBase exInc).cellAtPos 1 "Task" = some "" ∧
    (merge_into exBase exInc).cellAtPos 2 "Task" = some "" :=
  ⟨by decide, by decide,
   (merge_columns_union_fill exBase exInc (by decide) (by decide)).1,
   by decide,
   (merge_columns_union_fill exBase exInc (by decide) (by decide)).2.1
     0 (by decide) "Owner" (by decide) (by decide),
   (merge_columns_union_fill exBase exInc (by decide) (by decide)).2.2
     0 (by decide) "Task" (by decide) (by decide),
   (merge_columns_union_fill exBase exInc (by decide) (by decide)).2.2
     1 (by decide) "Task" (by decide) (by decide)⟩

/-- Claim C8.  Merging yields all base rows (in their original relative
order, agreeing with the originals on every base column) followed by all
incoming rows (likewise), re-identified with a fresh dense `0..N-1` label
range; the row count is always the sum of the operand row counts, whatever
the column overlap. -/
theorem merge_rows_concat_reident (b i : DataFrame) :
    (merge_into b i).rows.length = b.rows.length + i.rows.length ∧
    (merge_into b i).rows.map Prod.fst
      = List.range (b.rows.length + i.rows.length) ∧
    (∀ j, ∀ hj : j < b.rows.length, ∀ c ∈ b.columns,
      (merge_into b i).cellAtPos j c
        = cellOfCells b.columns (b.rows.get ⟨j, hj⟩).2 c) ∧
    (∀ j, ∀ hj : j < i.rows.length, ∀ c ∈ i.columns,
      (merge_into b i).cellAtPos (b.rows.length + j) c
        = cellOfCells i.columns (i.rows.get ⟨j, hj⟩).2 c) := by
  refine ⟨?_, ?_, ?_, ?_⟩
  · simp [merge_into, resetIndex, reindexColumns, List.enum_length]
  · have h1 : (merge_into b i).rows.map Prod.fst
        = List.range ((merge_into b i).rows.map Prod.snd).length := by
      simp only [merge_into, resetIndex]
      rw [List.enum_map_fst, List.enum_map_snd]
    rw [h1, merge_into_rows_snd]
    simp
  · intro j hj c hc
    have hcU : c ∈ (merge_into b i).columns := by
      rw [merge_into_columns, mem_dedupFirst]
      exact List.mem_append_left _ hc
    obtain ⟨k, hk⟩ := Option.isSome_iff_exists.mp (colIndex?_isSome_of_mem hcU)
    have hkU := colIndex?_getElem? hk
    rw [merge_into_columns] at hkU
    obtain ⟨jb, hjb⟩ := Option.isSome_iff_exists.mp (colIndex?_isSome_of_mem hc)
    have hcs : ((merge_into b i).rows.map Prod.snd)[j]?
        = some ((dedupFirst (b.columns ++ i.columns)).map fun c =>
            match colIndex? c b.columns with
            | some jb => (b.rows.get ⟨j, hj⟩).2.getD jb none
            | none => some "") := by
      rw [merge_into_rows_snd, List.getElem?_append, if_pos (by simpa using hj),
        List.getElem?_map, List.getElem?_eq_getElem hj]
      rfl
    rw [cellAtPos_eq hcs hk, List.getD_eq_getElem?_getD, List.getElem?_map, hkU]
    simp only [Option.map_some', Option.getD_some]
    rw [hjb, cellOfCells_eq _ hjb]
  · intro j hj c hc
    have hcU : c ∈ (merge_into b i).columns := by
      rw [merge_into_columns, mem_dedupFirst]
      exact List.mem_append_right _ hc
    obtain ⟨k, hk⟩ := Option.isSome_iff_exists.mp (colIndex?_isSome_of_mem hcU)
    have hkU := colIndex?_getElem? hk
    rw [merge_into_columns] at hkU
    obtain ⟨ji, hji⟩ := Option.isSome_iff_exists.mp (colIndex?_isSome_of_mem hc)
    have hcs : ((merge_into b i).rows.map Prod.snd)[b.rows.length + j]?
        = some ((dedupFirst (b.columns ++ i.columns)).map fun c =>
            match colIndex? c i.columns with
            | some ji => (i.rows.get ⟨j, hj⟩).2.getD ji none
            | none => some "") := by
      rw [merge_into_rows_snd, List.getElem?_append,
        if_neg (by simp), List.length_map, Nat.add_sub_cancel_left,
        List.getElem?_map, List.getElem?_eq_getElem hj]
      rfl
    rw [cellAtPos_eq hcs hk, List.getD_eq_getElem?_getD, List.getElem?_map, hkU]
    simp only [Option.map_some', Option.getD_some]
    rw [hji, cellOfCells_eq _ hji]

/-- Witness for claim C8 at the concrete merge example: one base row plus
two incoming rows give three rows with fresh dense labels `0, 1, 2`; the
base row keeps its `Task` cell and the first incoming row keeps its `Due`
cell. -/
theorem merge_rows_concat_reident_witness :
    (merge_into exBase exInc).rows.length
      = exBase.rows.length + exInc.rows.length ∧
    (merge_into exBase exInc).rows.map Prod.fst = List.range 3 ∧
    (merge_into exBase exInc).cellAtPos 0 "Task"
      = cellOfCells exBase.columns [some "t0", some "d0"] "Task" ∧
    (merge_into exBase exInc).cellAtPos 1 "Due"
      = cellOfCells exInc.columns [some "d1", some "o1"] "Due" ∧
    (merge_into exBase exInc).cellAtPos 0 "Task" = some "t0" ∧
    (merge_into exBase exInc).cellAtPos 1 "Due" = some "d1" :=
  ⟨(merge_rows_concat_reident exBase exInc).1,
   (merge_rows_concat_reident exBase exInc).2.1,
   (merge_rows_concat_reident exBase exInc).2.2.1 0 (by decide) "Task"
     (by decide),
   (merge_rows_concat_reident exBase exInc).2.2.2 0 (by decide) "Due"
     (by decide),
   by decide, by decide⟩

/-- Claim C9.  Marking rows done updates the first column (in declared
order) whose lower-cased name is `status`, `state` or `progress`; when no
such column exists, a column literally named `Status` is appended, every
other row receiving the empty string, and the targeted (present) rows' cell
in that column is set to the literal `Completed`. -/
theorem mark_done_status_column (df : DataFrame) (ids : List Nat)
    (hlen : ∀ r ∈ df.rows, r.2.length = df.columns.length) :
    (∀ c, findStatusCol df.columns = some c →
      isStatusLike c = true ∧
      (∃ pre post, df.columns = pre ++ c :: post ∧
        ∀ x ∈ pre, isStatusLike x = false) ∧
      (mark_selected_done df ids).columns = df.columns ∧
      (∀ r ∈ df.rows, r.1 ∈ ids →
        (mark_selected_done df ids).cellOfLabel r.1 c = some "Completed")) ∧
    (findStatusCol df.columns = none →
      (mark_selected_done df ids).columns = df.columns ++ ["Status"] ∧
      (∀ r ∈ df.rows, r.1 ∉ ids →
        (mark_selected_done df ids).cellOfLabel r.1 "Status" = some "") ∧
      (∀ r ∈ df.rows, r.1 ∈ ids →
        (mark_selected_done df ids).cellOfLabel r.1 "Status"
          = some "Completed")) := by
  constructor
  · intro c hc
    have hsplit := find?_eq_some_split hc
    have hmemc : c ∈ df.columns := List.mem_of_find?_eq_some hc
    obtain ⟨j, hj⟩ := Option.isSome_iff_exists.mp (colIndex?_isSome_of_mem hmemc)
    have hmark : mark_selected_done df ids
        = { columns := df.columns,
            rows := df.rows.map fun q =>
              if q.1 ∈ ids then (q.1, q.2.set j (some "Completed")) else q } := by
      rw [mark_selected_done, hc]
      exact foldl_updateAt c "Completed" j ids df hj
    refine ⟨hsplit.1, hsplit.2, by rw [hmark], ?_⟩
    intro r hr hin
    have hfs : (df.rows.find? fun q => q.1 == r.1).isSome = true :=
      List.find?_isSome.mpr ⟨r, hr, by simp⟩
    obtain ⟨r0, hr0⟩ := Option.isSome_iff_exists.mp hfs
    have hr0lab : r0.1 = r.1 := by simpa using List.find?_some hr0
    have hr0mem : r0 ∈ df.rows := List.mem_of_find?_eq_some hr0
    have hg : ∀ x : Nat × List Cell,
        ((fun q : Nat × List Cell =>
          if q.1 ∈ ids then (q.1, q.2.set j (some "Completed")) else q) x).1
          = x.1 := by
      intro x
      by_cases hx : x.1 ∈ ids <;> simp [hx]
    have hfm := find?_label_map _ hg r.1 df.rows
    rw [hr0] at hfm
    rw [hmark]
    simp only [DataFrame.cellOfLabel, hfm, Option.map_some']
    rw [if_pos (show r0.1 ∈ ids by rw [hr0lab]; exact hin)]
    dsimp only
    rw [cellOfCells_eq _ hj, List.getD_eq_getElem?_getD,
      List.getElem?_set_self (by rw [hlen r0 hr0mem]; exact colIndex?_lt_length hj)]
    rfl
  · intro hnone
    have hnotin : "Status" ∉ df.columns := by
      intro hmem
      exact (List.find?_eq_none.mp hnone) "Status" hmem (by decide)
    have hj1 : colIndex? "Status" (df.columns ++ ["Status"])
        = some df.columns.length :=
      colIndex?_append_self hnotin
    have hmark : mark_selected_done df ids
        = { columns := df.columns ++ ["Status"],
            rows := (df.rows.map fun r => (r.1, r.2 ++ [some ""])).map fun q =>
              if q.1 ∈ ids
              then (q.1, q.2.set df.columns.length (some "Completed")) else q } := by
      rw [mark_selected_done, hnone]
      exact foldl_updateAt "Status" "Completed" df.columns.length ids
        (assign_new_column df "Status" "") hj1
    have hg2 : ∀ x : Nat × List Cell,
        (((fun q : Nat × List Cell =>
              if q.1 ∈ ids
              then (q.1, q.2.set df.columns.length (some "Completed")) else q)
            ∘ fun r : Nat × List Cell => (r.1, r.2 ++ [some ""])) x).1 = x.1 := by
      intro x
      by_cases hx : x.1 ∈ ids <;> simp [Function.comp, hx]
    refine ⟨by rw [hmark], ?_, ?_⟩
    · intro r hr hnin
      have hfs : (df.rows.find? fun q => q.1 == r.1).isSome = true :=
        List.find?_isSome.mpr ⟨r, hr, by simp⟩
      obtain ⟨r0, hr0⟩ := Option.isSome_iff_exists.mp hfs
      have hr0lab : r0.1 = r.1 := by simpa using List.find?_some hr0
      have hr0mem : r0 ∈ df.rows := List.mem_of_find?_eq_some hr0
      have hfm := find?_label_map _ hg2 r.1 df.rows
      rw [hr0] at hfm
      rw [hmark, List.map_map]
      simp only [DataFrame.cellOfLabel, hfm, Option.map_some', Function.comp]
      rw [if_neg (show ¬ r0.1 ∈ ids by rw [hr0lab]; exact hnin)]
      dsimp only
      rw [cellOfCells_eq _ hj1, List.getD_eq_getElem?_getD,
        ← hlen r0 hr0mem, List.getElem?_concat_length]
      rfl
    · intro r hr hin
      have hfs : (df.rows.find? fun q => q.1 == r.1).isSome = true :=
        List.find?_isSome.mpr ⟨r, hr, by simp⟩
      obtain ⟨r0, hr0⟩ := Option.isSome_iff_exists.mp hfs
      have hr0lab : r0.1 = r.1 := by simpa using List.find?_some hr0
      have hr0mem : r0 ∈ df.rows := List.mem_of_find?_eq_some hr0
      have hfm := find?_label_map _ hg2 r.1 df.rows
      rw [hr0] at hfm
      rw [hmark, List.map_map]
      simp only [DataFrame.cellOfLabel, hfm, Option.map_some', Function.comp]
      rw [if_pos (show r0.1 ∈ ids by rw [hr0lab]; exact hin)]
      dsimp only
      rw [cellOfCells_eq _ hj1, List.getD_eq_getElem?_getD,
        List.getElem?_set_self (by simp [hlen r0 hr0mem])]
      rfl

/-- Witness for claim C9 at the spec's example: a frame with columns
`Task, Priority` and no status-like column; marking row 0 done appends a
`Status` column, row 1 gets the empty string and row 0 gets `Completed`. -/
theorem mark_done_status_column_witness :
    (∀ r ∈ exDf9.rows, r.2.length = exDf9.columns.length) ∧
    (mark_selected_done exDf9 [0]).columns = ["Task", "Priority", "Status"] ∧
    (mark_selected_done exDf9 [0]).cellOfLabel 1 "Status" = some "" ∧
    (mark_selected_done exDf9 [0]).cellOfLabel 0 "Status" = some "Completed" :=
  ⟨by decide,
   ((mark_done_status_column exDf9 [0] (by decide)).2 rfl).1,
   ((mark_done_status_column exDf9 [0] (by decide)).2 rfl).2.1
     (1, [some "t1", some "Low"]) (by decide) (by decide),
   ((mark_done_status_column exDf9 [0] (by decide)).2 rfl).2.2
     (0, [some "t0", some "High"]) (by decide) (by decide)⟩
